import Mathlib

set_option maxHeartbeats 1000000
set_option linter.unusedVariables false

/-
Verification of the lvm-spec-pressure bridge (src/src/lvm_spec_pressure/server.py).

The embedding models serial bytes as Char values (the repository only ever
uses ASCII payloads and delimiters).  A serial device is modelled as the
stream of bytes it will emit: each byte is tagged with the delay since the
previous byte was read, and the stream records whether the device then
closes the connection (EOF) or stays silent forever.  Timeouts are the
per-call budgets of asyncio.wait_for, compared against those delays.
-/

namespace LvmSpecPressure

/-- A serial device reply stream: timed bytes, then EOF or silence. -/
structure SerialStream where
  events : List (Nat × Char)
  closes : Bool
deriving DecidableEq

/-- Boolean test that the first list is a prefix of the second. -/
def isPrefixB : List Char → List Char → Bool
  | [], _ => true
  | _ :: _, [] => false
  | a :: as, b :: bs => a == b && isPrefixB as bs

/-- Helper on reversed lists: sepRev occurs (reversed) somewhere in the list. -/
def containsSubRev (sepRev : List Char) : List Char → Bool
  | [] => isPrefixB sepRev []
  | c :: rest => isPrefixB sepRev (c :: rest) || containsSubRev sepRev rest

/-- The list l ends with sep. -/
def endsWith (l sep : List Char) : Bool := isPrefixB sep.reverse l.reverse

/-- sep occurs as a contiguous run inside l. -/
def containsSub (sep l : List Char) : Bool := containsSubRev sep.reverse l.reverse

/-- Python html.escape on a single character (quote=True, the default used at
server.py line 73). -/
def escapeChar (c : Char) : List Char :=
  if c = '&' then "&amp;".data
  else if c = '<' then "&lt;".data
  else if c = '>' then "&gt;".data
  else if c = '"' then "&quot;".data
  else if c = '\'' then "&#x27;".data
  else [c]

/-- Python html.escape applied to a whole string (server.py line 73 applies it
to the configured delimiter before matching). -/
def htmlEscape (l : List Char) : List Char := (l.map escapeChar).flatten

/-- The string has none of the five characters html.escape rewrites. -/
def noSpecialChars (l : List Char) : Bool :=
  l.all fun c => !(c == '&' || c == '<' || c == '>' || c == '"' || c == '\'')

/-- Outcome of asyncio.wait_for(reader.readuntil(sep), timeout). -/
inductive ReadUntilResult where
  | found (r : List Char)
  | incomplete (part : List Char)
  | timedOut (part : List Char)
deriving DecidableEq

/-- reader.readuntil(sep) under a wait_for budget.  The reader buffers byte by
byte; the read completes the first time the buffer ends with sep (the first
occurrence of the separator).  If the device closes before that, the read
raises IncompleteReadError; if the budget is exhausted first, wait_for raises
TimeoutError. -/
def runReaduntil (sep : List Char) : Nat → List Char → List (Nat × Char) → Bool → ReadUntilResult
  | _, buf, [], true => .incomplete buf
  | _, buf, [], false => .timedOut buf
  | budget, buf, (d, c) :: rest, closes =>
    if budget < d then .timedOut buf
    else if endsWith (buf ++ [c]) sep then .found (buf ++ [c])
    else runReaduntil sep (budget - d) (buf ++ [c]) rest closes

/-- The bytes of the stream that arrive within the given total budget. -/
def timelyArrived : Nat → List (Nat × Char) → List Char
  | _, [] => []
  | budget, (d, c) :: rest => if budget < d then [] else c :: timelyArrived (budget - d) rest

/-- The no-delimiter branch of SerialConnection.readall (server.py lines
83-95): read one byte at a time, re-arming the wait_for timeout for each byte;
on TimeoutError return the accumulated reply, on IncompleteReadError (device
closed) or any other error return the empty reply, discarding the
accumulation. -/
def readallNoDelim (timeout : Nat) : List Char → List (Nat × Char) → Bool → List Char
  | reply, [], false => reply
  | _, [], true => []
  | reply, (d, c) :: rest, closes =>
    if timeout < d then reply
    else readallNoDelim timeout (reply ++ [c]) rest closes

/-- SerialConnection.readall (server.py lines 62-95).  With a non-empty
delimiter it awaits readuntil on the html-escaped delimiter under the timeout;
IncompleteReadError and every other exception, including the TimeoutError
raised by wait_for, are caught and yield the empty reply.  Otherwise it runs
the byte-by-byte loop. -/
def readall (timeout : Nat) (delimiter : Option String) (s : SerialStream) : List Char :=
  match delimiter with
  | some d =>
    if d = "" then readallNoDelim timeout [] s.events s.closes
    else
      match runReaduntil (htmlEscape d.data) timeout [] s.events s.closes with
      | .found r => r
      | .incomplete _ => []
      | .timedOut _ => []
  | none => readallNoDelim timeout [] s.events s.closes

/-- The serial handle state of a SerialConnection: the wserial field (absent
before the first connect, otherwise an open or a closed stream writer), the
number of live OS-level handles to the device, and how many times
open_serial_connection was called. -/
structure SerialPort where
  wserial : Option Bool
  osOpen : Nat
  connects : Nat
deriving DecidableEq

/-- SerialConnection.start_client (server.py lines 50-60): if a writer exists
it is closed and awaited first, then a fresh serial connection is opened.
Returns the intermediate handle states followed by the final state. -/
def start_client (p : SerialPort) : List SerialPort × SerialPort :=
  match p.wserial with
  | some b =>
    let p1 : SerialPort := ⟨some false, p.osOpen - (if b then 1 else 0), p.connects⟩
    let p2 : SerialPort := ⟨some true, p1.osOpen + 1, p1.connects + 1⟩
    ([p1, p2], p2)
  | none =>
    let p2 : SerialPort := ⟨some true, p.osOpen + 1, p.connects + 1⟩
    ([p2], p2)

/-- Result of SerialConnection.send_to_serial: the handle states traversed,
the final handle state, and the reply returned to the caller. -/
structure SendResult where
  states : List SerialPort
  fin : SerialPort
  reply : List Char
deriving DecidableEq

/-- SerialConnection.send_to_serial (server.py lines 97-128): always calls
start_client first, writes the data and drains, reads a reply with readall,
and in the finally block closes the write handle.  readall absorbs every
reader exception (lines 76-81 and 88-95), so the except branches at lines
116-123 never run; the finally at lines 124-126 always does. -/
def send_to_serial (p : SerialPort) (data : List Char) (timeout : Nat)
    (delimiter : Option String) (s : SerialStream) : SendResult :=
  let r := start_client p
  let reply := readall timeout delimiter s
  let p2 : SerialPort := ⟨some false, r.2.osOpen - 1, r.2.connects⟩
  ⟨r.1 ++ [p2], p2, reply⟩

/-- N consecutive transactions against the same SerialConnection, one per
device reply stream. -/
def runTransactions (p : SerialPort) (timeout : Nat) (delimiter : Option String) :
    List SerialStream → List SerialPort × SerialPort
  | [] => ([], p)
  | s :: rest =>
    let r := send_to_serial p [] timeout delimiter s
    let r2 := runTransactions r.fin timeout delimiter rest
    (r.states ++ r2.1, r2.2)

/-- The serial port state before any transaction. -/
def initialPort : SerialPort := ⟨none, 0, 0⟩

/-- Largest number of simultaneously live OS handles along a trace. -/
def maxOs (l : List SerialPort) : Nat := l.foldr (fun p m => max p.osOpen m) 0

/- ===== The per-connection handler, sequential view (server.py lines 213-260) ===== -/

/-- What one reader.read(1024) call on the client socket yields: EOF (zero
bytes or at_eof) or a non-empty chunk of data. -/
inductive ClientInput where
  | eof
  | chunk (d : List Char)
deriving DecidableEq

/-- Observable outcome of SpecPressureServer._client_connected_cb on one
connection: how many serial transactions ran, the replies written back to the
client, the part of the client script the handler never read, and the final
serial handle state. -/
structure HandlerResult where
  transactions : Nat
  repliesSent : List (List Char)
  unread : List ClientInput
  port : SerialPort
deriving DecidableEq

/-- SpecPressureServer._client_connected_cb (server.py lines 213-260).  The
body of the while True loop ends in a return on every path: the EOF branch
returns at line 229, and the try/finally falls through to the return at line
260, so exactly one iteration ever runs: one read, at most one transaction
under the lock, reply written back when non-empty, then the finally closes
the writer and the handler returns.  An empty script means the client sends
nothing and never closes, leaving the handler suspended in reader.read. -/
def client_connected_cb (timeout : Nat) (delimiter : Option String) (p : SerialPort)
    (device : SerialStream) : List ClientInput → HandlerResult
  | [] => ⟨0, [], [], p⟩
  | .eof :: rest => ⟨0, [], rest, p⟩
  | .chunk d :: rest =>
    let r := send_to_serial p d timeout delimiter device
    ⟨1, if r.reply = [] then [] else [r.reply], rest, r.fin⟩

/- ===== The per-connection handler, concurrent view ===== -/

/-- Phase of one connection handler task.  inTransaction is the window in
which the send_to_serial call of that task (server.py lines 234-238) is in
flight; replying covers the reply write and drain still inside the lock
scope; cleanup is the finally block at lines 250-258. -/
inductive Phase where
  | reading
  | awaitingLock
  | inTransaction
  | replying
  | cleanup
  | done
deriving DecidableEq

/-- One connection handler task: what its first client read will yield, where
it currently is, and whether its client writer has been closed. -/
structure ConnTask where
  input : ClientInput
  phase : Phase
  writerClosed : Bool
deriving DecidableEq

/-- The shared state of one SpecPressureServer: the asyncio.Lock created at
server.py line 187 (recorded with the ghost identity of the task that
acquired it; none when unlocked - asyncio locks carry no owner and
release() frees the lock no matter who holds it), and the handler tasks. -/
structure Sys where
  lock : Option Nat
  tasks : Nat → ConnTask

/-- Replace the task at one index. -/
def setTask (f : Nat → ConnTask) (i : Nat) (t : ConnTask) : Nat → ConnTask :=
  fun j => if j = i then t else f j

/-- Interleaved small-step semantics of _client_connected_cb, one constructor
per stretch of code between suspension points.

readEof: lines 223-229, the read returned zero bytes, the writer is closed
and the handler heads for the finally block.
readData: lines 223-231, a non-empty chunk was read; the task will next
contend for the lock.
readReset: a ConnectionResetError in the read, caught at line 244; the
handler heads for the finally block without closing the writer yet.
acquire: line 233, the lock is free and the task takes it.
transactEnd: lines 234-242, the send_to_serial call and the reply write
complete.
withExit: exiting the async-with block releases the lock; if some other task
stole and rereleased it the release raises instead and the exception is
caught at line 247 - either way the lock ends unlocked and the task reaches
the finally block.
cleanupDone: lines 250-260, the finally block closes the writer, and when
the lock is locked at that moment - whoever holds it - releases it; the
handler then returns. -/
inductive StepBy : Nat → Sys → Sys → Prop where
  | readEof (i : Nat) (s : Sys) :
      (s.tasks i).phase = .reading → (s.tasks i).input = .eof →
      StepBy i s ⟨s.lock, setTask s.tasks i ⟨(s.tasks i).input, .cleanup, true⟩⟩
  | readData (i : Nat) (s : Sys) (d : List Char) :
      (s.tasks i).phase = .reading → (s.tasks i).input = .chunk d →
      StepBy i s ⟨s.lock, setTask s.tasks i ⟨(s.tasks i).input, .awaitingLock, (s.tasks i).writerClosed⟩⟩
  | readReset (i : Nat) (s : Sys) :
      (s.tasks i).phase = .reading →
      StepBy i s ⟨s.lock, setTask s.tasks i ⟨(s.tasks i).input, .cleanup, (s.tasks i).writerClosed⟩⟩
  | acquire (i : Nat) (s : Sys) :
      (s.tasks i).phase = .awaitingLock → s.lock = none →
      StepBy i s ⟨some i, setTask s.tasks i ⟨(s.tasks i).input, .inTransaction, (s.tasks i).writerClosed⟩⟩
  | transactEnd (i : Nat) (s : Sys) :
      (s.tasks i).phase = .inTransaction →
      StepBy i s ⟨s.lock, setTask s.tasks i ⟨(s.tasks i).input, .replying, (s.tasks i).writerClosed⟩⟩
  | withExit (i : Nat) (s : Sys) :
      (s.tasks i).phase = .replying →
      StepBy i s ⟨none, setTask s.tasks i ⟨(s.tasks i).input, .cleanup, (s.tasks i).writerClosed⟩⟩
  | cleanupDone (i : Nat) (s : Sys) :
      (s.tasks i).phase = .cleanup →
      StepBy i s ⟨none, setTask s.tasks i ⟨(s.tasks i).input, .done, true⟩⟩

/-- Some task takes a step. -/
def SysStep (s s' : Sys) : Prop := ∃ i, StepBy i s s'

/-- Reflexive-transitive closure of the interleaving semantics. -/
def Reachable : Sys → Sys → Prop := Relation.ReflTransGen SysStep

/-- Two fresh connections: task 0 will send a chunk, task 1 (and every later
task) immediately reaches EOF.  The lock starts unlocked. -/
def initTwo : Sys :=
  ⟨none, fun i => if i = 0 then ⟨.chunk ['a'], .reading, false⟩ else ⟨.eof, .reading, false⟩⟩

/-- Three fresh connections: tasks 0 and 2 will send chunks, task 1 reaches
EOF.  The lock starts unlocked. -/
def initThree : Sys :=
  ⟨none, fun i =>
    if i = 0 then ⟨.chunk ['a'], .reading, false⟩
    else if i = 1 then ⟨.eof, .reading, false⟩
    else ⟨.chunk ['b'], .reading, false⟩⟩

/- ===== SpecPressureServer.__init__ configuration handling (lines 158-193) ===== -/

/-- The device entry of a camera configuration (url plus serial parameters,
opaque to the constructor). -/
structure DeviceParams where
  url : String
deriving DecidableEq

/-- One camera entry of the configuration mapping. -/
structure CameraConfig where
  port : Option Nat
  delimiter : Option String
  device : Option DeviceParams
deriving DecidableEq

/-- The configuration mapping: spec name to camera name to camera entry. -/
structure Config where
  specs : List (String × List (String × CameraConfig))
deriving DecidableEq

/-- Key lookup in an association list, the membership test of a Python dict. -/
def lookupA {α : Type} : List (String × α) → String → Option α
  | [], _ => none
  | (k, v) :: rest, key => if k = key then some v else lookupA rest key

/-- The errors SpecPressureServer.__init__ can raise: the RuntimeError of
line 179 when the spec or camera key is missing, or the TypeError Python
raises at line 189 when the camera entry has no device mapping. -/
inductive InitError where
  | configNotFound (camera : String)
  | missingDevice
deriving DecidableEq

/-- The state a successfully constructed SpecPressureServer holds. -/
structure ServerState where
  spec : String
  camera : String
  port : Option Nat
  timeout : Nat
  delimiter : Option String
  device : DeviceParams
  lockLocked : Bool
deriving DecidableEq

/-- SpecPressureServer.__init__ (server.py lines 158-193) given an explicit
configuration.  Line 175-179: raise RuntimeError when the spec key is absent
from specs or the camera key absent under it.  Lines 183-185: a passed port
of 0 and a passed delimiter of the empty string are falsy in Python, so the
or-expressions fall back to the configured values.  Line 187 creates the
lock unlocked; line 189 unpacks the device entry. -/
def specPressureServerInit (spec camera : String) (port : Option Nat) (timeout : Nat)
    (delimiter : Option String) (config : Config) : Except InitError ServerState :=
  match lookupA config.specs spec with
  | none => .error (.configNotFound camera)
  | some cameras =>
    match lookupA cameras camera with
    | none => .error (.configNotFound camera)
    | some camCfg =>
      match camCfg.device with
      | none => .error .missingDevice
      | some dev =>
        .ok { spec := spec, camera := camera,
              port := (match port with
                       | some p => if p = 0 then camCfg.port else some p
                       | none => camCfg.port),
              timeout := timeout,
              delimiter := (match delimiter with
                            | some dl => if dl = "" then camCfg.delimiter else some dl
                            | none => camCfg.delimiter),
              device := dev, lockLocked := false }

/-- The spec and camera keys are both present in the configuration. -/
def configHas (config : Config) (spec camera : String) : Bool :=
  match lookupA config.specs spec with
  | none => false
  | some cameras => (lookupA cameras camera).isSome

/- ===== Theorems ===== -/

/-- Claim C10: constructing a SpecPressureServer raises the configuration
RuntimeError exactly when the spec key is absent from the configuration
specs mapping or the camera key is absent under that spec; in particular a
bridge for an unknown spec or camera name never starts. -/
theorem c10_config_error_iff :
    ∀ (spec camera : String) (port : Option Nat) (timeout : Nat)
      (delimiter : Option String) (config : Config),
      specPressureServerInit spec camera port timeout delimiter config
          = .error (.configNotFound camera)
        ↔ configHas config spec camera = false := by
  intro spec camera port timeout delimiter config
  unfold specPressureServerInit configHas
  cases hs : lookupA config.specs spec with
  | none => simp [hs]
  | some cameras =>
    cases hc : lookupA cameras camera with
    | none => simp [hs, hc]
    | some camCfg =>
      cases hd : camCfg.device with
      | none => simp [hs, hc, hd]
      | some dev => simp [hs, hc, hd]

/-- Claim C1 (code bug witness): the connection handler does not loop.  With a
client that sends the chunk P, then the chunk Q, and never disconnects, the
handler performs exactly one serial transaction and returns with the second
chunk never read, because every path through the body of the while True loop
at server.py lines 221-260 ends in a return. -/
theorem c1_handler_single_cycle :
    (client_connected_cb 5 none initialPort ⟨[(0, 'O'), (0, 'K')], false⟩
        [.chunk ['P'], .chunk ['Q']]).transactions = 1 ∧
    (client_connected_cb 5 none initialPort ⟨[(0, 'O'), (0, 'K')], false⟩
        [.chunk ['P'], .chunk ['Q']]).unread = [.chunk ['Q']] := by
  constructor <;> rfl

theorem htmlEscape_of_noSpecial :
    ∀ l : List Char, noSpecialChars l = true → htmlEscape l = l := by
  intro l h
  induction l with
  | nil => rfl
  | cons c rest ih =>
    rw [noSpecialChars, List.all_cons, Bool.and_eq_true] at h
    obtain ⟨hc, hr⟩ := h
    simp only [Bool.not_eq_true', Bool.or_eq_false_iff] at hc
    obtain ⟨⟨⟨⟨h1, h2⟩, h3⟩, h4⟩, h5⟩ := hc
    have he : escapeChar c = [c] := by
      rw [escapeChar]
      rw [if_neg (by simpa using h1), if_neg (by simpa using h2),
        if_neg (by simpa using h3), if_neg (by simpa using h4),
        if_neg (by simpa using h5)]
    show (escapeChar c ++ (rest.map escapeChar).flatten) = c :: rest
    rw [he]
    exact congrArg (c :: ·) (ih hr)

theorem containsSubRev_of_isPrefixB (sepRev r : List Char)
    (h : isPrefixB sepRev r = true) : containsSubRev sepRev r = true := by
  cases r with
  | nil => simpa [containsSubRev] using h
  | cons c rest => simp [containsSubRev, h]

theorem containsSubRev_append_left (sepRev x r : List Char)
    (h : containsSubRev sepRev r = true) : containsSubRev sepRev (x ++ r) = true := by
  induction x with
  | nil => simpa using h
  | cons c cs ih => simp [containsSubRev, ih]

theorem containsSub_append (sep l m : List Char)
    (h : containsSub sep l = true) : containsSub sep (l ++ m) = true := by
  have h2 := containsSubRev_append_left sep.reverse m.reverse l.reverse h
  rw [containsSub, List.reverse_append]
  exact h2

theorem containsSub_snoc (sep l : List Char) (c : Char) :
    containsSub sep (l ++ [c]) = (endsWith (l ++ [c]) sep || containsSub sep l) := by
  rw [containsSub, containsSub, endsWith, List.reverse_append]
  rfl

theorem containsSub_nil_of_ne (sep : List Char) (h : sep ≠ []) :
    containsSub sep [] = false := by
  rw [containsSub]
  cases hrev : sep.reverse with
  | nil => exact absurd (by simpa using hrev) h
  | cons a as => simp [containsSubRev, hrev, isPrefixB]

/-- Success case of the delimiter-mode read: a found result ends with the
separator, contains no earlier occurrence of it, and extends the running
buffer with bytes that arrived within the budget. -/
theorem runReaduntil_found (sep : List Char) :
    ∀ (events : List (Nat × Char)) (closes : Bool) (budget : Nat) (buf r : List Char),
      runReaduntil sep budget buf events closes = .found r →
      containsSub sep buf = false →
      endsWith r sep = true ∧ containsSub sep r.dropLast = false ∧
        ∃ u, u ≠ [] ∧ r = buf ++ u ∧ isPrefixB u (timelyArrived budget events) = true := by
  intro events
  induction events with
  | nil =>
    intro closes budget buf r h hc
    cases closes <;> simp [runReaduntil] at h
  | cons e rest ih =>
    obtain ⟨d, c⟩ := e
    intro closes budget buf r h hc
    rw [runReaduntil] at h
    by_cases hbd : budget < d
    · rw [if_pos hbd] at h
      exact absurd h (by simp)
    · rw [if_neg hbd] at h
      by_cases hend : endsWith (buf ++ [c]) sep = true
      · rw [if_pos hend] at h
        have hr : buf ++ [c] = r := by
          simpa using h
        subst hr
        refine ⟨hend, ?_, [c], by simp, rfl, ?_⟩
        · simpa using hc
        · rw [timelyArrived, if_neg hbd]
          simp [isPrefixB]
      · rw [if_neg (by simpa using hend)] at h
        have hc' : containsSub sep (buf ++ [c]) = false := by
          rw [containsSub_snoc]
          simp only [Bool.or_eq_false_iff]
          exact ⟨by simpa using hend, hc⟩
        obtain ⟨hE, hD, u', hu', hru, hp⟩ := ih closes (budget - d) (buf ++ [c]) r h hc'
        refine ⟨hE, hD, c :: u', by simp, ?_, ?_⟩
        · rw [hru, List.append_assoc]
          rfl
        · rw [timelyArrived, if_neg hbd]
          simp [isPrefixB, hp]

/-- Failure characterization: when the separator does not occur in the bytes
that arrive within the budget (beyond what the buffer already rules out),
readuntil never succeeds. -/
theorem runReaduntil_not_found (sep : List Char) :
    ∀ (events : List (Nat × Char)) (closes : Bool) (budget : Nat) (buf : List Char),
      containsSub sep (buf ++ timelyArrived budget events) = false →
      ∀ r, runReaduntil sep budget buf events closes ≠ .found r := by
  intro events
  induction events with
  | nil =>
    intro closes budget buf h r
    cases closes <;> simp [runReaduntil]
  | cons e rest ih =>
    obtain ⟨d, c⟩ := e
    intro closes budget buf h r
    rw [runReaduntil]
    by_cases hbd : budget < d
    · rw [if_pos hbd]
      simp
    · rw [if_neg hbd]
      rw [timelyArrived, if_neg hbd] at h
      have hassoc : buf ++ c :: timelyArrived (budget - d) rest
          = (buf ++ [c]) ++ timelyArrived (budget - d) rest := by
        rw [List.append_assoc]
        rfl
      rw [hassoc] at h
      have hend : endsWith (buf ++ [c]) sep = false := by
        by_contra hne
        have he : endsWith (buf ++ [c]) sep = true := by
          cases hx : endsWith (buf ++ [c]) sep
          · exact absurd hx hne
          · rfl
        have : containsSub sep ((buf ++ [c]) ++ timelyArrived (budget - d) rest) = true := by
          apply containsSub_append
          rw [containsSub_snoc, he]
          rfl
        rw [this] at h
        cases h
      rw [if_neg (by simp [hend])]
      exact ih closes (budget - d) (buf ++ [c]) h r

/-- Claim C3 (counterexample): with the delimiter configured as the single
character lower-than sign and a device that promptly replies with a followed
by that very delimiter, the transaction does not return those bytes as the
claim requires - it returns the empty reply, because the code matches the
html-escaped delimiter instead of the delimiter itself. -/
theorem c3_delimiter_escaped_counterexample :
    (send_to_serial initialPort ['P'] 5 (some "<") ⟨[(0, 'a'), (0, '<')], false⟩).reply = [] ∧
    (send_to_serial initialPort ['P'] 5 (some "<") ⟨[(0, 'a'), (0, '<')], false⟩).reply
      ≠ ['a', '<'] := by
  constructor
  · rfl
  · intro h
    cases h

theorem escapeChar_ne_nil (c : Char) : escapeChar c ≠ [] := by
  rw [escapeChar]
  split_ifs <;> simp

theorem htmlEscape_ne_nil (l : List Char) (h : l ≠ []) : htmlEscape l ≠ [] := by
  cases l with
  | nil => exact absurd rfl h
  | cons c rest =>
    simp only [htmlEscape, List.map_cons, List.flatten_cons]
    intro hx
    exact escapeChar_ne_nil c (List.append_eq_nil.mp hx).1

/-- Claim C3 (amended): for every non-empty configured delimiter, the
delimiter-mode read matches the html-escaped form of the delimiter - which
is the delimiter itself exactly when it has none of the five characters
html.escape rewrites - and on success the non-empty result of readall ends
with that escaped sequence, contains no earlier occurrence of it, and is a
prefix of the bytes the device delivered within the timeout: precisely the
bytes received up to and including the (escaped) delimiter. -/
theorem c3_delimiter_framing_amended :
    ∀ d : String, d.data ≠ [] →
      (noSpecialChars d.data = true → htmlEscape d.data = d.data) ∧
      ∀ (t : Nat) (s : SerialStream) (r : List Char),
        readall t (some d) s = r → r ≠ [] →
        endsWith r (htmlEscape d.data) = true ∧
        containsSub (htmlEscape d.data) r.dropLast = false ∧
          isPrefixB r (timelyArrived t s.events) = true := by
  intro d hne
  refine ⟨htmlEscape_of_noSpecial d.data, ?_⟩
  intro t s r hr hrne
  have hd : ¬ d = "" := by
    intro h
    rw [h] at hne
    exact hne rfl
  rw [readall, if_neg hd] at hr
  cases hm : runReaduntil (htmlEscape d.data) t [] s.events s.closes with
  | found r0 =>
    rw [hm] at hr
    have hr0 : r0 = r := hr
    subst hr0
    have hc0 : containsSub (htmlEscape d.data) [] = false :=
      containsSub_nil_of_ne _ (htmlEscape_ne_nil d.data hne)
    obtain ⟨hE, hD, u, hu, hru, hp⟩ := runReaduntil_found _ s.events s.closes t [] r0 hm hc0
    refine ⟨hE, hD, ?_⟩
    rw [hru]
    simpa using hp
  | incomplete part =>
    rw [hm] at hr
    exact absurd hr.symm hrne
  | timedOut part =>
    rw [hm] at hr
    exact absurd hr.symm hrne

/-- The device stream of the delimiter framing witness: the delimiter under
test is the lower-than sign, which html.escape rewrites, and the device
replies with x followed by the escaped sequence the code actually matches,
then silence. -/
def ltStream : SerialStream :=
  ⟨[(0, 'x'), (0, '&'), (0, 'l'), (0, 't'), (0, ';')], false⟩

/-- Claim C3 witness: the framing theorem applied at the special-character
delimiter lower-than: readall succeeds on the html-escaped sequence and
returns exactly the bytes up to and including its first occurrence. -/
theorem c3_delimiter_framing_amended_witness :
    endsWith ['x', '&', 'l', 't', ';'] (htmlEscape "<".data) = true ∧
    containsSub (htmlEscape "<".data) (['x', '&', 'l', 't', ';'].dropLast) = false ∧
    isPrefixB ['x', '&', 'l', 't', ';'] (timelyArrived 9 ltStream.events) = true :=
  (c3_delimiter_framing_amended "<" (by decide)).2 9 ltStream
    ['x', '&', 'l', 't', ';'] (by decide) (by decide)

/-- Claim C7 (counterexample): delimiter configured as the lower-than sign;
the device reply never contains that delimiter, yet the transaction returns
a non-empty reply instead of the empty one the claim requires, because the
code searched for the html-escaped delimiter and found it. -/
theorem c7_timeout_empty_counterexample :
    containsSub "<".data
        (timelyArrived 9 [(0, '&'), (0, 'l'), (0, 't'), (0, ';')]) = false ∧
    (send_to_serial initialPort ['P'] 9 (some "<")
        ⟨[(0, '&'), (0, 'l'), (0, 't'), (0, ';')], false⟩).reply = ['&', 'l', 't', ';'] ∧
    (send_to_serial initialPort ['P'] 9 (some "<")
        ⟨[(0, '&'), (0, 'l'), (0, 't'), (0, ';')], false⟩).reply ≠ [] := by
  refine ⟨by decide, rfl, ?_⟩
  intro h
  cases h

/-- Claim C7 (amended): with a non-empty delimiter whose html-escaped form
never occurs in the bytes delivered within the timeout, the read returns the
empty reply - a timeout or an end of stream with only a partial match is a
failure yielding the empty reply - and no exception escapes, readall being a
total function that absorbs both TimeoutError and IncompleteReadError. -/
theorem c7_timeout_empty_amended :
    ∀ (d : String) (t : Nat) (s : SerialStream), d ≠ "" →
      containsSub (htmlEscape d.data) (timelyArrived t s.events) = false →
      readall t (some d) s = [] := by
  intro d t s hd hcs
  rw [readall, if_neg hd]
  cases hm : runReaduntil (htmlEscape d.data) t [] s.events s.closes with
  | found r0 =>
    exact absurd hm (runReaduntil_not_found _ s.events s.closes t [] (by simpa using hcs) r0)
  | incomplete part => rfl
  | timedOut part => rfl

/-- Claim C7 witness: delimiter configured as a newline, device sends two
bytes and never the newline; the transaction yields the empty reply. -/
theorem c7_timeout_empty_amended_witness :
    readall 5 (some "\n") ⟨[(0, 'a'), (0, 'b')], false⟩ = [] :=
  c7_timeout_empty_amended "\n" 5 ⟨[(0, 'a'), (0, 'b')], false⟩ (by decide) (by decide)

/-- The no-delimiter loop consumes every byte that arrives within its
per-byte budget; when the device then stays silent the next wait_for times
out and the loop returns everything accumulated. -/
theorem readallNoDelim_silent (t : Nat) :
    ∀ (ev : List (Nat × Char)) (acc : List Char), (∀ e ∈ ev, e.1 ≤ t) →
      readallNoDelim t acc ev false = acc ++ ev.map Prod.snd := by
  intro ev
  induction ev with
  | nil => intro acc h; simp [readallNoDelim]
  | cons e rest ih =>
    obtain ⟨d, c⟩ := e
    intro acc h
    have hd : d ≤ t := h (d, c) (by simp)
    rw [readallNoDelim, if_neg (by omega)]
    rw [ih (acc ++ [c]) (fun e he => h e (by simp [he]))]
    simp

/-- When a byte would arrive only after the per-byte budget, the loop stops
there and returns exactly the bytes accumulated so far. -/
theorem readallNoDelim_timeout (t : Nat) :
    ∀ (pre : List (Nat × Char)) (acc : List Char) (d : Nat) (c : Char)
      (post : List (Nat × Char)) (closes : Bool),
      (∀ e ∈ pre, e.1 ≤ t) → t < d →
      readallNoDelim t acc (pre ++ (d, c) :: post) closes = acc ++ pre.map Prod.snd := by
  intro pre
  induction pre with
  | nil =>
    intro acc d c post closes h htd
    rw [List.nil_append, readallNoDelim, if_pos htd]
    simp
  | cons e rest ih =>
    obtain ⟨d0, c0⟩ := e
    intro acc d c post closes h htd
    have hd0 : d0 ≤ t := h (d0, c0) (by simp)
    rw [List.cons_append, readallNoDelim, if_neg (by omega)]
    rw [ih (acc ++ [c0]) d c post closes (fun e he => h e (by simp [he])) htd]
    simp

/-- When the device closes after its last byte and every byte arrived within
the per-byte budget, the final readexactly hits the end of stream, the
IncompleteReadError is caught, and the loop returns the empty reply,
discarding the accumulation. -/
theorem readallNoDelim_eof (t : Nat) :
    ∀ (ev : List (Nat × Char)) (acc : List Char), (∀ e ∈ ev, e.1 ≤ t) →
      readallNoDelim t acc ev true = [] := by
  intro ev
  induction ev with
  | nil => intro acc h; rfl
  | cons e rest ih =>
    obtain ⟨d, c⟩ := e
    intro acc h
    have hd : d ≤ t := h (d, c) (by simp)
    rw [readallNoDelim, if_neg (by omega)]
    exact ih (acc ++ [c]) (fun e he => h e (by simp [he]))

/-- Claim C6: with no delimiter configured the reply is accumulated byte by
byte with the timeout re-armed for every byte - a stream whose bytes each
arrive within the per-byte timeout is returned in full once the device goes
silent, even when the total elapsed time exceeds the timeout - and when some
byte would arrive only after the per-byte timeout, the transaction returns
exactly the bytes accumulated before it. -/
theorem c6_no_delimiter_framing :
    (∀ (t : Nat) (ev : List (Nat × Char)), (∀ e ∈ ev, e.1 ≤ t) →
        readall t none ⟨ev, false⟩ = ev.map Prod.snd) ∧
    (∀ (t : Nat) (pre : List (Nat × Char)) (d : Nat) (c : Char)
        (post : List (Nat × Char)) (closes : Bool),
        (∀ e ∈ pre, e.1 ≤ t) → t < d →
        readall t none ⟨pre ++ (d, c) :: post, closes⟩ = pre.map Prod.snd) := by
  constructor
  · intro t ev h
    rw [readall]
    exact readallNoDelim_silent t ev [] h
  · intro t pre d c post closes h htd
    rw [readall]
    exact readallNoDelim_timeout t pre [] d c post closes h htd

/-- Claim C6 witness: a device that emits O and K, each after a delay under
the timeout though their sum exceeds it, then stays silent, yields exactly
OK - the timeout restarts after every received byte. -/
theorem c6_no_delimiter_framing_witness :
    readall 4 none ⟨[(4, 'O'), (4, 'K')], false⟩ = ['O', 'K'] :=
  c6_no_delimiter_framing.1 4 [(4, 'O'), (4, 'K')] (by decide)

/-- Claim C4 (counterexample): the device sends O and K and then disappears
(end of stream).  The read error is not a timeout, yet send_to_serial does
not return the accumulated partial reply OK - line 92 of server.py discards
it and returns the empty reply. -/
theorem c4_read_error_counterexample :
    (send_to_serial initialPort ['P'] 5 none ⟨[(0, 'O'), (0, 'K')], true⟩).reply = [] ∧
    (send_to_serial initialPort ['P'] 5 none ⟨[(0, 'O'), (0, 'K')], true⟩).reply
      ≠ ['O', 'K'] := by
  constructor
  · rfl
  · intro h
    cases h

/-- Claim C4 (amended): on a read error other than a timeout - the device
closing the stream mid-read - the error is absorbed inside readall, which
returns the empty reply discarding whatever partial reply had accumulated,
and send_to_serial closes the write handle in its cleanup and returns that
empty reply to the caller rather than raising. -/
theorem c4_read_error_amended :
    ∀ (p : SerialPort) (data : List Char) (t : Nat) (ev : List (Nat × Char)),
      (∀ e ∈ ev, e.1 ≤ t) →
      (send_to_serial p data t none ⟨ev, true⟩).reply = [] ∧
      (send_to_serial p data t none ⟨ev, true⟩).fin.wserial = some false := by
  intro p data t ev h
  constructor
  · show readall t none ⟨ev, true⟩ = []
    rw [readall]
    exact readallNoDelim_eof t ev [] h
  · rfl

/-- Claim C4 witness: concrete instance of the amended claim at the
counterexample input. -/
theorem c4_read_error_amended_witness :
    (send_to_serial initialPort ['P'] 5 none ⟨[(0, 'O'), (0, 'K')], true⟩).reply = [] ∧
    (send_to_serial initialPort ['P'] 5 none ⟨[(0, 'O'), (0, 'K')], true⟩).fin.wserial
      = some false :=
  c4_read_error_amended initialPort ['P'] 5 [(0, 'O'), (0, 'K')] (by decide)

/-- Well-formed handle state: the OS handle count is one exactly when the
wserial writer is open. -/
def PortWF (p : SerialPort) : Prop :=
  p.osOpen = (if p.wserial = some true then 1 else 0)

/-- One transaction from a well-formed handle state: the final handle is
closed with no OS handle live, exactly one more connect was issued, and at
no intermediate state was more than one OS handle live. -/
theorem send_to_serial_handles (p : SerialPort) (data : List Char) (t : Nat)
    (delim : Option String) (s : SerialStream) (h : PortWF p) :
    (send_to_serial p data t delim s).fin = ⟨some false, 0, p.connects + 1⟩ ∧
    maxOs (send_to_serial p data t delim s).states ≤ 1 := by
  rw [PortWF] at h
  cases hw : p.wserial with
  | none =>
    rw [hw] at h
    simp only [reduceCtorEq, if_false] at h
    constructor
    · show (⟨some false, (start_client p).2.osOpen - 1, (start_client p).2.connects⟩ : SerialPort) = _
      rw [start_client, hw]
      simp [h]
    · show maxOs ((start_client p).1 ++ [⟨some false, (start_client p).2.osOpen - 1, (start_client p).2.connects⟩]) ≤ 1
      rw [start_client, hw]
      simp [maxOs, h]
  | some b =>
    rw [hw] at h
    constructor
    · show (⟨some false, (start_client p).2.osOpen - 1, (start_client p).2.connects⟩ : SerialPort) = _
      rw [start_client, hw]
      cases b <;> simp_all
    · show maxOs ((start_client p).1 ++ [⟨some false, (start_client p).2.osOpen - 1, (start_client p).2.connects⟩]) ≤ 1
      rw [start_client, hw]
      cases b <;> simp_all [maxOs]

/-- Invariant for a run of consecutive transactions from a closed handle
state: connects counts the transactions, the final handle state is closed
with no live OS handle, and the whole trace never has two live handles. -/
theorem runTransactions_handles (t : Nat) (delim : Option String) :
    ∀ (streams : List SerialStream) (p : SerialPort), PortWF p → p.osOpen = 0 →
      (runTransactions p t delim streams).2.connects = p.connects + streams.length ∧
      (runTransactions p t delim streams).2.osOpen = 0 ∧
      PortWF (runTransactions p t delim streams).2 ∧
      maxOs (runTransactions p t delim streams).1 ≤ 1 := by
  intro streams
  induction streams with
  | nil =>
    intro p h h0
    exact ⟨rfl, h0, h, by simp [runTransactions, maxOs]⟩
  | cons s rest ih =>
    intro p h h0
    obtain ⟨hfin, hmax⟩ := send_to_serial_handles p [] t delim s h
    have hwf2 : PortWF (send_to_serial p [] t delim s).fin := by
      rw [hfin]
      simp [PortWF]
    have h02 : (send_to_serial p [] t delim s).fin.osOpen = 0 := by
      rw [hfin]
    obtain ⟨ih1, ih2, ih3, ih4⟩ := ih (send_to_serial p [] t delim s).fin hwf2 h02
    refine ⟨?_, ih2, ih3, ?_⟩
    · show (runTransactions (send_to_serial p [] t delim s).fin t delim rest).2.connects
        = p.connects + (rest.length + 1)
      rw [ih1, hfin]
      show p.connects + 1 + rest.length = p.connects + (rest.length + 1)
      omega
    · show maxOs ((send_to_serial p [] t delim s).states
        ++ (runTransactions (send_to_serial p [] t delim s).fin t delim rest).1) ≤ 1
      have hsplit : ∀ (a b : List SerialPort), maxOs (a ++ b) = max (maxOs a) (maxOs b) := by
        intro a b
        induction a with
        | nil => simp [maxOs]
        | cons x xs ihx => simp [maxOs] at ihx ⊢; omega
      rw [hsplit]
      exact max_le hmax ih4

/-- Claim C8: starting from a never-connected SerialConnection, N consecutive
send_to_serial transactions issue exactly N connects (every transaction
begins with start_client), at most one OS-level serial handle is ever live
at an instant (connect closes and waits on the old handle before opening a
new one), and after the last transaction no handle remains open (the finally
block of send_to_serial closes it on every return path). -/
theorem c8_connect_per_transaction :
    ∀ (t : Nat) (delim : Option String) (streams : List SerialStream),
      (runTransactions initialPort t delim streams).2.connects = streams.length ∧
      (runTransactions initialPort t delim streams).2.osOpen = 0 ∧
      maxOs (runTransactions initialPort t delim streams).1 ≤ 1 := by
  intro t delim streams
  obtain ⟨h1, h2, h3, h4⟩ := runTransactions_handles t delim streams initialPort
    (by simp [PortWF, initialPort]) rfl
  exact ⟨by simpa [initialPort] using h1, h2, h4⟩

/- Trace through initTwo: task 0 reads its chunk and acquires the lock; task
1 observes EOF; task 1 then runs the finally block, which sees the lock
locked and releases it although task 0 holds it. -/

/-- After task 0 read its chunk. -/
def stealA : Sys :=
  ⟨initTwo.lock, setTask initTwo.tasks 0
    ⟨(initTwo.tasks 0).input, .awaitingLock, (initTwo.tasks 0).writerClosed⟩⟩

/-- After task 0 acquired the lock; its transaction is in flight. -/
def stealB : Sys :=
  ⟨some 0, setTask stealA.tasks 0
    ⟨(stealA.tasks 0).input, .inTransaction, (stealA.tasks 0).writerClosed⟩⟩

/-- After task 1 read EOF and closed its writer. -/
def stealC : Sys :=
  ⟨stealB.lock, setTask stealB.tasks 1 ⟨(stealB.tasks 1).input, .cleanup, true⟩⟩

/-- After task 1 ran the finally block: it released the lock task 0 holds. -/
def stealD : Sys :=
  ⟨none, setTask stealC.tasks 1 ⟨(stealC.tasks 1).input, .done, true⟩⟩

theorem steal_reach_stealC : Reachable initTwo stealC :=
  Relation.ReflTransGen.head ⟨0, .readData 0 initTwo ['a'] rfl rfl⟩
    (Relation.ReflTransGen.head ⟨0, .acquire 0 stealA rfl rfl⟩
      (Relation.ReflTransGen.head ⟨1, .readEof 1 stealB rfl rfl⟩
        Relation.ReflTransGen.refl))

/-- Claim C9: on every exit of the connection handler - the EOF path and the
successful-reply path included - the cleanup has closed the client writer
and leaves the lock unlocked, releasing it whenever it was locked at that
moment; and because the locked test does not check ownership, a handler exit
really can release a lock that the in-flight transaction of another connection holds:
from two fresh connections the system reaches a state in which task 0 holds
the lock inside its transaction and task 1, exiting on EOF, releases it. -/
theorem c9_cleanup_release :
    (∀ (i : Nat) (s s' : Sys), StepBy i s s' → (s.tasks i).phase ≠ .done →
        (s'.tasks i).phase = .done → (s'.tasks i).writerClosed = true ∧ s'.lock = none) ∧
    (∃ s s' : Sys, Reachable initTwo s ∧ StepBy 1 s s' ∧ s.lock = some 0 ∧
        (s.tasks 0).phase = .inTransaction ∧ (s'.tasks 1).phase = .done ∧ s'.lock = none) := by
  constructor
  · intro i s s' h hne hdone
    cases h with
    | readEof h1 h2 => simp [setTask] at hdone
    | readData d h1 h2 => simp [setTask] at hdone
    | readReset h1 => simp [setTask] at hdone
    | acquire h1 h2 => simp [setTask] at hdone
    | transactEnd h1 => simp [setTask] at hdone
    | withExit h1 => simp [setTask] at hdone
    | cleanupDone h1 => exact ⟨by simp [setTask], rfl⟩
  · exact ⟨stealC, stealD, steal_reach_stealC, .cleanupDone 1 stealC rfl, rfl, rfl, rfl, rfl⟩

/-- Claim C9 witness: the universal half of the claim applied to the
concrete cleanup step of task 1 in the stolen-lock trace. -/
theorem c9_cleanup_release_witness :
    (stealD.tasks 1).writerClosed = true ∧ stealD.lock = none :=
  c9_cleanup_release.1 1 stealC stealD (.cleanupDone 1 stealC rfl)
    (by decide) rfl

/-- Claim C5 (counterexample): a connection whose read observes EOF does not
leave the lock untouched - reachable concrete run on two connections in
which task 1 reads EOF while task 0 holds the lock, and the exit of task 1 flips
the lock from locked (held by task 0) to unlocked. -/
theorem c5_eof_lock_counterexample :
    ∃ s s' : Sys, Reachable initTwo s ∧ (s.tasks 1).input = .eof ∧ StepBy 1 s s' ∧
      s.lock = some 0 ∧ s'.lock = none ∧ s.lock ≠ s'.lock :=
  ⟨stealC, stealD, steal_reach_stealC, rfl, .cleanupDone 1 stealC rfl, rfl, rfl, by decide⟩

/-- In a system state, every task whose client input is EOF sits in one of
the phases the EOF path ever visits: reading, cleanup or done. -/
def EofQuiet (s : Sys) : Prop :=
  ∀ i, (s.tasks i).input = .eof →
    (s.tasks i).phase = .reading ∨ (s.tasks i).phase = .cleanup ∨ (s.tasks i).phase = .done

theorem stepBy_preserves_input (i : Nat) (s s' : Sys) (h : StepBy i s s') :
    ∀ j, (s'.tasks j).input = (s.tasks j).input := by
  cases h <;> intro j <;> by_cases hj : j = i <;> simp [setTask, hj]

theorem eofQuiet_step (i : Nat) (s s' : Sys) (h : StepBy i s s') (hq : EofQuiet s) :
    EofQuiet s' := by
  intro j hj
  have hj' : (s.tasks j).input = .eof := by
    rw [← stepBy_preserves_input i s s' h j]
    exact hj
  by_cases hji : j = i
  · subst hji
    cases h with
    | readEof h1 h2 =>
      right; left; simp [setTask]
    | readData d h1 h2 =>
      rw [hj'] at h2
      simp at h2
    | readReset h1 =>
      right; left; simp [setTask]
    | acquire h1 h2 =>
      rcases hq j hj' with hp | hp | hp <;> rw [h1] at hp <;> cases hp
    | transactEnd h1 =>
      rcases hq j hj' with hp | hp | hp <;> rw [h1] at hp <;> cases hp
    | withExit h1 =>
      rcases hq j hj' with hp | hp | hp <;> rw [h1] at hp <;> cases hp
    | cleanupDone h1 =>
      right; right; simp [setTask]
  · have heq : s'.tasks j = s.tasks j := by
      cases h <;> simp [setTask, hji]
    rw [heq]
    exact hq j hj'

theorem eofQuiet_reachable (s0 s : Sys) (h : Reachable s0 s) (h0 : EofQuiet s0) :
    EofQuiet s := by
  induction h with
  | refl => exact h0
  | tail hab hbc ih =>
    obtain ⟨i, hstep⟩ := hbc
    exact eofQuiet_step i _ _ hstep ih

/-- Claim C5 (amended): in every run that starts with all connections at
their first read, a connection whose read observes EOF closes the client
socket and exits without ever acquiring the lock; each of its steps either
leaves the lock exactly as it was or - in the finally block, when the lock
is locked at that moment, necessarily on behalf of some other connection -
flips it to unlocked.  So the lock state is unchanged by the EOF path
whenever no other connection holds the lock during its cleanup. -/
theorem c5_eof_lock_amended :
    ∀ (s0 s s' : Sys) (i : Nat), EofQuiet s0 → Reachable s0 s →
      (s.tasks i).input = .eof → StepBy i s s' →
      (s'.lock = s.lock ∨ (s.lock ≠ none ∧ s'.lock = none)) ∧
      (s.lock ≠ some i → s'.lock ≠ some i) ∧
      ((s'.tasks i).phase = .done → (s'.tasks i).writerClosed = true) := by
  intro s0 s s' i h0 hr hin hstep
  have hq := eofQuiet_reachable s0 s hr h0
  cases hstep with
  | readEof h1 h2 =>
    exact ⟨Or.inl rfl, fun h => h, fun _ => by simp [setTask]⟩
  | readData d h1 h2 =>
    rw [hin] at h2
    simp at h2
  | readReset h1 =>
    exact ⟨Or.inl rfl, fun h => h, fun h => by simp [setTask] at h⟩
  | acquire h1 h2 =>
    rcases hq i hin with hp | hp | hp <;> rw [h1] at hp <;> cases hp
  | transactEnd h1 =>
    rcases hq i hin with hp | hp | hp <;> rw [h1] at hp <;> cases hp
  | withExit h1 =>
    rcases hq i hin with hp | hp | hp <;> rw [h1] at hp <;> cases hp
  | cleanupDone h1 =>
    refine ⟨?_, fun _ h => by simp at h, fun _ => by simp [setTask]⟩
    cases hl : s.lock with
    | none => exact Or.inl rfl
    | some j => exact Or.inr ⟨by simp, rfl⟩

theorem initTwo_eofQuiet : EofQuiet initTwo := by
  intro i hi
  left
  by_cases h : i = 0 <;> simp [initTwo, h]

/-- Claim C5 witness: the amended claim applied to the concrete EOF-reading
step of task 1 from the fresh two-connection state. -/
theorem c5_eof_lock_amended_witness :
    ((⟨initTwo.lock, setTask initTwo.tasks 1 ⟨(initTwo.tasks 1).input, .cleanup, true⟩⟩ : Sys).lock
        = initTwo.lock ∨
      (initTwo.lock ≠ none ∧
        (⟨initTwo.lock, setTask initTwo.tasks 1 ⟨(initTwo.tasks 1).input, .cleanup, true⟩⟩ : Sys).lock
          = none)) ∧
    (initTwo.lock ≠ some 1 →
      (⟨initTwo.lock, setTask initTwo.tasks 1 ⟨(initTwo.tasks 1).input, .cleanup, true⟩⟩ : Sys).lock
        ≠ some 1) ∧
    (((⟨initTwo.lock, setTask initTwo.tasks 1 ⟨(initTwo.tasks 1).input, .cleanup, true⟩⟩ : Sys).tasks 1).phase
        = .done →
      ((⟨initTwo.lock, setTask initTwo.tasks 1 ⟨(initTwo.tasks 1).input, .cleanup, true⟩⟩ : Sys).tasks 1).writerClosed
        = true) :=
  c5_eof_lock_amended initTwo initTwo _ 1 initTwo_eofQuiet Relation.ReflTransGen.refl rfl
    (.readEof 1 initTwo rfl rfl)

/- Trace through initThree: task 0 reads and acquires; task 1 EOFs and its
cleanup releases the lock task 0 holds; task 2 reads, finds the lock free,
acquires it and starts its transaction while that of task 0 is still in flight. -/

/-- After task 0 read its chunk (three-connection run). -/
def overlapA : Sys :=
  ⟨initThree.lock, setTask initThree.tasks 0
    ⟨(initThree.tasks 0).input, .awaitingLock, (initThree.tasks 0).writerClosed⟩⟩

/-- After task 0 acquired the lock. -/
def overlapB : Sys :=
  ⟨some 0, setTask overlapA.tasks 0
    ⟨(overlapA.tasks 0).input, .inTransaction, (overlapA.tasks 0).writerClosed⟩⟩

/-- After task 1 read EOF. -/
def overlapC : Sys :=
  ⟨overlapB.lock, setTask overlapB.tasks 1 ⟨(overlapB.tasks 1).input, .cleanup, true⟩⟩

/-- After the finally block of task 1 released the lock task 0 holds. -/
def overlapD : Sys :=
  ⟨none, setTask overlapC.tasks 1 ⟨(overlapC.tasks 1).input, .done, true⟩⟩

/-- After task 2 read its chunk. -/
def overlapE : Sys :=
  ⟨overlapD.lock, setTask overlapD.tasks 2
    ⟨(overlapD.tasks 2).input, .awaitingLock, (overlapD.tasks 2).writerClosed⟩⟩

/-- After task 2 acquired the freed lock: two transactions in flight. -/
def overlapF : Sys :=
  ⟨some 2, setTask overlapE.tasks 2
    ⟨(overlapE.tasks 2).input, .inTransaction, (overlapE.tasks 2).writerClosed⟩⟩

/-- Claim C2 (code bug witness): mutual exclusion is violated on a reachable
interleaving.  From three fresh connections the system reaches a state in
which task 0 and task 2 are both in the inTransaction phase, that is, two
send_to_serial calls of the same server are simultaneously in flight: task
1, cleaning up after EOF, released the lock while task 0 still held it, letting task 2
acquire it. -/
theorem c2_overlapping_transactions_reachable :
    ∃ s : Sys, Reachable initThree s ∧
      (s.tasks 0).phase = .inTransaction ∧ (s.tasks 2).phase = .inTransaction := by
  refine ⟨overlapF, ?_, rfl, rfl⟩
  exact Relation.ReflTransGen.head ⟨0, .readData 0 initThree ['a'] rfl rfl⟩
    (Relation.ReflTransGen.head ⟨0, .acquire 0 overlapA rfl rfl⟩
      (Relation.ReflTransGen.head ⟨1, .readEof 1 overlapB rfl rfl⟩
        (Relation.ReflTransGen.head ⟨1, .cleanupDone 1 overlapC rfl⟩
          (Relation.ReflTransGen.head ⟨2, .readData 2 overlapD ['b'] rfl rfl⟩
            (Relation.ReflTransGen.head ⟨2, .acquire 2 overlapE rfl rfl⟩
              Relation.ReflTransGen.refl)))))

end LvmSpecPressure
